import Mathlib

/-!
Verification of the stock-advisor ranking pipeline (backend/app/main.py).

The Python source is shallowly embedded over ℚ: every float becomes a
rational, pandas NaN/undefined values become `Option ℚ`, and Python's
`round(x, k)` (half-to-even on binary floats) is modelled as half-up
rounding on ℚ; no claim below depends on the behaviour at exact ties.
Python's `int()` truncation is modelled by `Int.floor`, which agrees with
truncation on the non-negative values it is applied to here.
-/

namespace StockAdvisor

/-- `round(x, 1)` of the source, as half-up rounding to one decimal on ℚ. -/
def round1 (x : ℚ) : ℚ := ((⌊x * 10 + 1/2⌋ : ℤ) : ℚ) / 10

/-- `round(x, 2)` of the source, as half-up rounding to two decimals on ℚ. -/
def round2 (x : ℚ) : ℚ := ((⌊x * 100 + 1/2⌋ : ℤ) : ℚ) / 100

/-- One daily bar of the downloaded dataframe, columns o/h/l/c/v. -/
structure Bar where
  o : ℚ
  h : ℚ
  l : ℚ
  c : ℚ
  v : ℚ
deriving DecidableEq

/-- The last-row indicator values the scorer reads (`last = df.iloc[-1]`).
`none` stands for a pandas NaN (insufficient history), and for `vol_spike`
also for an infinite ratio, which the source likewise replaces by `1.0`. -/
structure Snapshot where
  c : ℚ
  ema20 : ℚ
  sma50 : Option ℚ
  sma200 : Option ℚ
  rsi14 : Option ℚ
  atr14 : Option ℚ
  vol_spike : Option ℚ
  breakout50 : Bool
deriving DecidableEq

/-- Day-over-day differences of a column (`series.diff()`, NaN head dropped). -/
def diffs : List ℚ → List ℚ
  | [] => []
  | [_] => []
  | a :: b :: rest => (b - a) :: diffs (b :: rest)

/-- Last value of `ewm(alpha, adjust=False).mean()`: seeded by the first
entry, `e := alpha * x + (1 - alpha) * e` afterwards. -/
def emaLast (alpha : ℚ) : List ℚ → Option ℚ
  | [] => none
  | x :: rest => some (rest.foldl (fun e c => alpha * c + (1 - alpha) * e) x)

/-- Last value of `rolling(w).mean()`: mean of the trailing `w` entries,
`none` (NaN) until `w` entries exist. -/
def smaLast (w : ℕ) (xs : List ℚ) : Option ℚ :=
  if 0 < w ∧ w ≤ xs.length then some ((xs.drop (xs.length - w)).sum / w) else none

/-- Last value of `_rsi(series, period)` from the source:
Wilder-smoothed gains and losses, `rs = gain / (loss + 1e-9)`,
`rsi = 100 - 100 / (1 + rs)`; NaN (`none`) when no difference exists yet. -/
def rsiLast (period : ℕ) (xs : List ℚ) : Option ℚ :=
  let ds := diffs xs
  match emaLast (1 / period) (ds.map (fun d => max d 0)),
        emaLast (1 / period) (ds.map (fun d => max (-d) 0)) with
  | some gain, some loss =>
      let rs := gain / (loss + 1 / 1000000000)
      some (100 - 100 / (1 + rs))
  | _, _ => none

/-- True Range per bar from the second bar on
(`np.maximum(h - l, np.maximum(|h - prevClose|, |l - prevClose|))`);
the first row's TR is NaN in the source and is not listed here. -/
def trList : List Bar → List ℚ
  | [] => []
  | [_] => []
  | a :: b :: rest => max (b.h - b.l) (max |b.h - a.c| |b.l - a.c|) :: trList (b :: rest)

/-- Last value of `tr.rolling(14).mean()`: the source's TR column starts
with a NaN row, so the last rolling mean is defined exactly when 14
NaN-free TR values fit in the window. -/
def atrLast (bars : List Bar) : Option ℚ := smaLast 14 (trList bars)

/-- Last value of `v / v.rolling(20).mean()`; `none` covers NaN (short
history, 0/0) and an infinite ratio (positive volume over a zero mean),
both of which the scorer replaces by `1.0`. Volumes are non-negative. -/
def volSpikeLast (bars : List Bar) : Option ℚ :=
  match smaLast 20 (bars.map (·.v)) with
  | some m => if m = 0 then none else some (((bars.map (·.v)).getLast?).getD 0 / m)
  | none => none

/-- The trailing `w`-entry window ending at index `i` (inclusive). -/
def rollWindow (w : ℕ) (xs : List ℚ) (i : ℕ) : List ℚ :=
  (xs.take (i + 1)).drop (i + 1 - w)

/-- `h.rolling(50).max()` at row `i`: NaN (`none`) until 50 rows exist,
else the maximum of the window that includes row `i` itself. -/
def hh50At (bars : List Bar) (i : ℕ) : WithBot ℚ :=
  if 50 ≤ i + 1 then (rollWindow 50 (bars.map (·.h)) i).maximum else ⊥

/-- `breakout50` at row `i`: `c > hh50`, false when `hh50` is NaN. -/
def breakout50At (bars : List Bar) (i : ℕ) : Bool :=
  match hh50At bars i with
  | ⊥ => false
  | (m : ℚ) => decide ((bars.map (·.c)).getD i 0 > m)

/-- The indicator snapshot of the final bar, one field per dataframe
column read by the scorer. Only evaluated on non-empty series. -/
def snapshotOf (bars : List Bar) : Snapshot :=
  let closes := bars.map (·.c)
  { c := closes.getLast?.getD 0
    ema20 := (emaLast (2 / 21) closes).getD 0
    sma50 := smaLast 50 closes
    sma200 := smaLast 200 closes
    rsi14 := rsiLast 14 closes
    atr14 := atrLast bars
    vol_spike := volSpikeLast bars
    breakout50 := breakout50At bars (bars.length - 1) }

/-- Trend stacking: the three `if` increments of the source; a comparison
against a NaN column (`sma50`/`sma200` absent) is false in pandas. -/
def trendCount (s : Snapshot) : ℕ :=
  (if s.c > s.ema20 then 1 else 0)
  + (if (match s.sma50 with | some v => decide (s.ema20 > v) | none => false : Bool) then 1 else 0)
  + (if (match s.sma200, s.sma50 with
         | some m, some f => decide (f > m)
         | _, _ => false : Bool) then 1 else 0)

/-- `atr_pct`: `atr / last.c` when `atr` is not NaN and `last.c` is
truthy (nonzero), else the `0.02` default. -/
def atrPct (s : Snapshot) : ℚ :=
  match s.atr14 with
  | some a => if s.c ≠ 0 then a / s.c else 2 / 100
  | none => 2 / 100

/-- The raw technical sum `tech` accumulated by `_rank_symbols`. -/
def techOf (s : Snapshot) : ℚ :=
  (trendCount s : ℚ) / 3 * 40
  + max 0 (1 - |s.rsi14.getD 50 - 62| / 38) * 25
  + (if s.breakout50 then 10 else 0)
  + max 0 (min 1 ((s.vol_spike.getD 1 - 1) / (3/2))) * 15
  + max 0 (min 1 ((6/100 - atrPct s) / (6/100))) * 10

/-- `composite = round(min(100.0, max(0.0, tech)), 1)`. -/
def compositeOf (s : Snapshot) : ℚ := round1 (min 100 (max 0 (techOf s)))

/-- The four classification strings of the source, as an enum. -/
inductive Classification where
  | multiBagger
  | shortTermBlast
  | neutral
  | avoid
deriving DecidableEq

/-- The if/elif/elif classification chain of `_rank_symbols`. -/
def classify (composite : ℚ) (trend : ℕ) : Classification :=
  if 72 ≤ composite ∧ 2 ≤ trend then .multiBagger
  else if 70 ≤ composite then .shortTermBlast
  else if composite < 55 then .avoid
  else .neutral

/-- `int(max(10, min(90, composite - 25 + trend * 5)))` of the full path;
the clamped value is at least 10, so `int()` truncation is `Int.floor`. -/
def confidenceFull (composite : ℚ) (trend : ℕ) : ℤ :=
  ⌊max 10 (min 90 (composite - 25 + (trend : ℚ) * 5))⌋

/-- `_cap_for_symbol` from the source. -/
def capFor (sym : String) : String :=
  if sym ∈ ["RELIANCE.NS", "TCS.NS", "HDFCBANK.NS", "INFY.NS", "ICICIBANK.NS"] then "large"
  else if sym ∈ ["CUMMINSIND.NS", "AIAENG.NS", "PIIND.NS", "AUROPHARMA.NS", "TATAELXSI.NS"] then "mid"
  else "small"

/-- One result dict appended to `results` (fields the claims read). -/
structure Recommendation where
  ticker : String
  cap : String
  composite_score : ℚ
  classification : Classification
  holding_duration : String
  confidence : ℤ
  stop_loss : ℚ
  target_band : ℚ × ℚ
deriving DecidableEq

/-- The full-indicator Recommendation built by `_rank_symbols` from the
final snapshot of a symbol's bar series. -/
def fullRec (sym : String) (s : Snapshot) : Recommendation :=
  let composite := compositeOf s
  let trend := trendCount s
  let classification := classify composite trend
  { ticker := sym.replace ".NS" ""
    cap := capFor sym
    composite_score := composite
    classification := classification
    holding_duration :=
      if classification = .shortTermBlast then "Short (1-30 days)"
      else if classification = .multiBagger then "Long (>12 months)"
      else if classification = .avoid then "N/A"
      else "Medium (1-12 months)"
    confidence := confidenceFull composite trend
    stop_loss := round2 (s.c - 9/5 * s.atr14.getD 0)
    target_band := (round2 (s.c * (112/100)), round2 (s.c * (128/100))) }

/-- The last/previous close pair the lightweight quote lookup yields
(`price` was non-None, `prev` may be missing). -/
structure Quote where
  price : ℚ
  prev : Option ℚ
deriving DecidableEq

/-- `change_pct` of `_minimal_from_quote`: zero unless `prev` is present
and nonzero. -/
def changePct (price : ℚ) (prev : Option ℚ) : ℚ :=
  match prev with
  | some p => if p ≠ 0 then (price - p) / p else 0
  | none => 0

/-- The degraded-path composite: `max(10.0, 50.0 + change_pct * 100 * 0.5)`
then `round(min(100.0, max(0.0, ...)), 1)`. -/
def minComposite (price : ℚ) (prev : Option ℚ) : ℚ :=
  round1 (min 100 (max 0 (max 10 (50 + changePct price prev * 100 * (1/2)))))

/-- The quote-only Recommendation `_minimal_from_quote` builds once a
price is known. -/
def minRecOf (sym : String) (q : Quote) : Recommendation :=
  let composite := minComposite q.price q.prev
  let classification :=
    if composite < 55 then Classification.avoid
    else if composite < 70 then .neutral
    else .shortTermBlast
  { ticker := (sym.replace ".NS" "").replace ".BO" ""
    cap := capFor sym
    composite_score := composite
    classification := classification
    holding_duration := if classification = .avoid then "N/A" else "Medium (1-12 months)"
    confidence := ⌊max 10 (min 85 (25 + (0 : ℚ) * 5 + (composite - 50)))⌋
    stop_loss := round2 (q.price * (95/100))
    target_band := (round2 (q.price * (108/100)), round2 (q.price * (115/100))) }

/-- `_minimal_from_quote`: `none` when no price is obtainable, otherwise
the quote-only Recommendation. -/
def minimalFromQuote (sym : String) (q : Option Quote) : Option Recommendation :=
  match q with
  | none => none
  | some q => some (minRecOf sym q)

/-- What the external provider yields for one symbol: the downloaded bar
series (`none` when every period fails or errors) and the lightweight
quote (`none` when `_minimal_from_quote` would find no price). -/
structure SymbolData where
  bars : Option (List Bar)
  quote : Option Quote
deriving DecidableEq

/-- The per-symbol body of `_rank_symbols`' loop: the full path when the
download produced at least `min_bars` rows, else the minimal-quote
fallback; `none` means the symbol is skipped. -/
def scoreSymbol (sym : String) (d : SymbolData) (minBars : ℕ) : Option Recommendation :=
  match d.bars with
  | none => minimalFromQuote sym d.quote
  | some b =>
      if b = [] ∨ b.length < minBars then minimalFromQuote sym d.quote
      else some (fullRec sym (snapshotOf b))

/-- Insert before the first element of not-larger score: Python's stable
descending sort (`list.sort(key=..., reverse=True)`) arises by folding
this over the list. -/
def insertDesc (r : Recommendation) : List Recommendation → List Recommendation
  | [] => [r]
  | x :: xs =>
      if x.composite_score ≤ r.composite_score then r :: x :: xs
      else x :: insertDesc r xs

/-- `results.sort(key=lambda x: x["composite_score"], reverse=True)`:
the unique stable descending sort by score. -/
def sortDesc : List Recommendation → List Recommendation
  | [] => []
  | x :: xs => insertDesc x (sortDesc xs)

/-- `_rank_symbols`: score each symbol against the provider data `env`,
drop failures, sort by composite score descending (stably) and keep the
first nine. -/
def rankSymbols (env : String → SymbolData) (minBars : ℕ) (symbols : List String) :
    List Recommendation :=
  (sortDesc (symbols.filterMap (fun sym => scoreSymbol sym (env sym) minBars))).take 9

/-- `/recommendations/one` after symbol normalisation: rank the single
symbol with `min_bars=20`, fall back to a direct quote snapshot, else a
null recommendation plus note. -/
def oneRec (env : String → SymbolData) (sym : String) :
    Option Recommendation × Option String :=
  match rankSymbols env 20 [sym] with
  | r :: _ => (some r, none)
  | [] =>
      match minimalFromQuote sym (env sym).quote with
      | some m => (some m, some "Quote-only snapshot (limited data).")
      | none => (none, some "No live data available for this symbol at the moment. Try later or check the symbol/exchange.")

/-- One `_CACHE["data"]` entry: the ranked list and its production time. -/
structure CacheEntry where
  items : List Recommendation
  ts : ℚ
deriving DecidableEq

/-- `cache_ttl = 900 if cap == "all" else 300`. -/
def ttlFor (key : String) : ℚ := if key = "all" then 900 else 300

/-- The cache-or-compute step of `top_recommendations`: on a fresh entry
return it verbatim, otherwise use `compute` (the freshly ranked list) and
replace the entry wholesale. Returns the served list and the new cache. -/
def cacheRead (cache : String → Option CacheEntry) (key : String) (now : ℚ)
    (compute : List Recommendation) :
    List Recommendation × (String → Option CacheEntry) :=
  match cache key with
  | some e =>
      if now - e.ts < ttlFor key then (e.items, cache)
      else (compute, fun k => if k = key then some ⟨compute, now⟩ else cache k)
  | none => (compute, fun k => if k = key then some ⟨compute, now⟩ else cache k)

/-- The pagination tail of `top_recommendations`: clamp `n` and `page`
into `[1,3]` and slice `ranked[start:start+n]`; Python slicing of an
out-of-range window yields the empty list, as `drop`/`take` do. -/
def topPage {α : Type} (ranked : List α) (n page : ℤ) : List α :=
  let n' := max 1 (min 3 n)
  let page' := max 1 (min 3 page)
  let start := (page' - 1) * n'
  (ranked.drop start.toNat).take n'.toNat

/-- The holding-duration string the spec assigns to each classification. -/
def holdingFor : Classification → String
  | .multiBagger => "Long (>12 months)"
  | .shortTermBlast => "Short (1-30 days)"
  | .avoid => "N/A"
  | .neutral => "Medium (1-12 months)"

/-- The degraded composite exactly as the spec sentence words it:
`round(clamp(50 + changePct*100*0.5, 0, 100), 1)`, with no inner floor. -/
def specMinComposite (price : ℚ) (prev : Option ℚ) : ℚ :=
  round1 (min 100 (max 0 (50 + changePct price prev * 100 * (1/2))))

/-- "No data of any kind is obtainable": the download yielded nothing or
fewer than the single-symbol `min_bars = 20` rows, and no quote exists. -/
def noData (d : SymbolData) : Bool :=
  (match d.bars with
   | none => true
   | some b => b.isEmpty || decide (b.length < 20)) && d.quote.isNone

section RoundingLemmas

lemma int_le_round1 {a : ℤ} {x : ℚ} (h : (a : ℚ) ≤ x) : (a : ℚ) ≤ round1 x := by
  unfold round1
  have h1 : ((10 * a : ℤ) : ℚ) ≤ x * 10 + 1/2 := by push_cast; linarith
  have h2 : (10 * a : ℤ) ≤ ⌊x * 10 + 1/2⌋ := Int.le_floor.mpr h1
  have h3 : ((10 * a : ℤ) : ℚ) ≤ (⌊x * 10 + 1/2⌋ : ℚ) := by exact_mod_cast h2
  push_cast at h3
  linarith

lemma round1_le_int {b : ℤ} {x : ℚ} (h : x ≤ (b : ℚ)) : round1 x ≤ (b : ℚ) := by
  unfold round1
  have h1 : (⌊x * 10 + 1/2⌋ : ℚ) ≤ x * 10 + 1/2 := Int.floor_le _
  have h2 : (⌊x * 10 + 1/2⌋ : ℚ) < ((10 * b + 1 : ℤ) : ℚ) := by push_cast; linarith
  have h3 : ⌊x * 10 + 1/2⌋ < 10 * b + 1 := by exact_mod_cast h2
  have h4 : (⌊x * 10 + 1/2⌋ : ℚ) ≤ ((10 * b : ℤ) : ℚ) := by
    exact_mod_cast Int.lt_add_one_iff.mp h3
  push_cast at h4
  linarith

lemma round2_lt_round2 {x y : ℚ} (h : x + 1/100 ≤ y) : round2 x < round2 y := by
  unfold round2
  have h1 : x * 100 + 1/2 + (1 : ℤ) ≤ y * 100 + 1/2 := by push_cast; linarith
  have h2 : ⌊x * 100 + 1/2 + ((1 : ℤ) : ℚ)⌋ ≤ ⌊y * 100 + 1/2⌋ := Int.floor_mono (by push_cast at h1 ⊢; linarith)
  rw [Int.floor_add_int] at h2
  have h3 : (⌊x * 100 + 1/2⌋ : ℚ) < (⌊y * 100 + 1/2⌋ : ℚ) := by exact_mod_cast by omega
  linarith

end RoundingLemmas

/-- Claim C1: on the full-indicator path the composite score equals
`round(clamp(T + R + B + V + A, 0, 100), 1)` with the five terms exactly
as claimed (trend stacking, triangular RSI band around 62 with a default
of 50, breakout bonus, volume-spike score with a default of 1, and the
ATR-percentage bonus with a 0.02 default), and the composite score of a
Recommendation from either path lies in `[0, 100]`. -/
theorem composite_formula_and_range (s : Snapshot) (sym : String)
    (price : ℚ) (prev : Option ℚ) :
    compositeOf s
      = round1 (min 100 (max 0
          ((trendCount s : ℚ) / 3 * 40
           + max 0 (1 - |s.rsi14.getD 50 - 62| / 38) * 25
           + (if s.breakout50 then (10 : ℚ) else 0)
           + max 0 (min 1 ((s.vol_spike.getD 1 - 1) / (3/2))) * 15
           + max 0 (min 1 ((6/100 - atrPct s) / (6/100))) * 10))) ∧
    (fullRec sym s).composite_score = compositeOf s ∧
    0 ≤ compositeOf s ∧ compositeOf s ≤ 100 ∧
    0 ≤ minComposite price prev ∧ minComposite price prev ≤ 100 := by
  have hs0 : (0 : ℚ) ≤ min 100 (max 0 (techOf s)) :=
    le_min (by norm_num) (le_max_left 0 _)
  have hs1 : min 100 (max 0 (techOf s)) ≤ 100 := min_le_left _ _
  have hm0 : (0 : ℚ) ≤ min 100 (max 0 (max 10 (50 + changePct price prev * 100 * (1/2)))) :=
    le_min (by norm_num) (le_max_left 0 _)
  have hm1 : min 100 (max 0 (max 10 (50 + changePct price prev * 100 * (1/2)))) ≤ 100 :=
    min_le_left _ _
  refine ⟨rfl, rfl, ?_, ?_, ?_, ?_⟩
  · exact_mod_cast int_le_round1 (a := 0) (by exact_mod_cast hs0)
  · exact_mod_cast round1_le_int (b := 100) (by exact_mod_cast hs1)
  · exact_mod_cast int_le_round1 (a := 0) (by exact_mod_cast hm0)
  · exact_mod_cast round1_le_int (b := 100) (by exact_mod_cast hm1)

/-- Claim C2 counterexample: at last = 1, prev = 100 the code floors the
degraded composite at 10 before clamping, while the claimed formula
`round(clamp(50 + changePct*100*0.5, 0, 100), 1)` yields 0.5. -/
theorem minimal_composite_counterexample :
    minComposite 1 (some 100) = 10 ∧
    specMinComposite 1 (some 100) = 1/2 ∧
    minComposite 1 (some 100) ≠ specMinComposite 1 (some 100) := by
  norm_num [minComposite, specMinComposite, changePct, round1]

/-- Claim C2 (amended): the quote-only composite equals
`round(clamp(max(10, 50 + changePct*100*0.5), 0, 100), 1)` with
`changePct` as claimed; consequently it lies in `[10, 100]` — a large
negative daily change drives it down to 10, never to 0. -/
theorem minimal_composite_amended (price : ℚ) (prev : Option ℚ) (p : ℚ) :
    minComposite price prev
      = round1 (min 100 (max 0 (max 10 (50 + changePct price prev * 100 * (1/2))))) ∧
    changePct price none = 0 ∧
    changePct price (some 0) = 0 ∧
    (p ≠ 0 → changePct price (some p) = (price - p) / p) ∧
    10 ≤ minComposite price prev ∧ minComposite price prev ≤ 100 := by
  have h10 : (10 : ℚ) ≤ min 100 (max 0 (max 10 (50 + changePct price prev * 100 * (1/2)))) := by
    have : (10 : ℚ) ≤ max 0 (max 10 (50 + changePct price prev * 100 * (1/2))) :=
      le_trans (le_max_left 10 _) (le_max_right 0 _)
    exact le_min (by norm_num) this
  have h100 : min 100 (max 0 (max 10 (50 + changePct price prev * 100 * (1/2)))) ≤ 100 :=
    min_le_left _ _
  refine ⟨rfl, rfl, by norm_num [changePct], ?_, ?_, ?_⟩
  · intro hp
    simp [changePct, hp]
  · exact_mod_cast int_le_round1 (a := 10) (by exact_mod_cast h10)
  · exact_mod_cast round1_le_int (b := 100) (by exact_mod_cast h100)

/-- Claim C2 witness: the amended statement applied at last = 1,
prev = 100 (a −99% day): changePct is −99/100 and the composite is
exactly the floor value 10. -/
theorem minimal_composite_amended_witness :
    changePct 1 (some 100) = (1 - 100) / 100 ∧ 10 ≤ minComposite 1 (some 100) := by
  refine ⟨(minimal_composite_amended 1 (some 100) 100).2.2.2.1 (by norm_num),
    (minimal_composite_amended 1 (some 100) 100).2.2.2.2.1⟩

/-- Claim C3: the full-path classifier tests its thresholds in order with
first match winning (the four if/elif cases characterised as exclusive
conditions), each classification carries the claimed holding string, and
the confidence is the integer clamp of `composite − 25 + trend×5` into
`[10, 90]`. -/
theorem classifier_order_and_confidence (c : ℚ) (t : ℕ) (sym : String) (s : Snapshot) :
    (classify c t = .multiBagger ↔ 72 ≤ c ∧ 2 ≤ t) ∧
    (classify c t = .shortTermBlast ↔ ¬(72 ≤ c ∧ 2 ≤ t) ∧ 70 ≤ c) ∧
    (classify c t = .avoid ↔ ¬(72 ≤ c ∧ 2 ≤ t) ∧ ¬70 ≤ c ∧ c < 55) ∧
    (classify c t = .neutral ↔ ¬(72 ≤ c ∧ 2 ≤ t) ∧ ¬70 ≤ c ∧ ¬c < 55) ∧
    (fullRec sym s).classification = classify (compositeOf s) (trendCount s) ∧
    (fullRec sym s).holding_duration = holdingFor (fullRec sym s).classification ∧
    (fullRec sym s).confidence = confidenceFull (compositeOf s) (trendCount s) ∧
    confidenceFull c t = ⌊max 10 (min 90 (c - 25 + (t : ℚ) * 5))⌋ ∧
    10 ≤ confidenceFull c t ∧ confidenceFull c t ≤ 90 := by
  refine ⟨?_, ?_, ?_, ?_, rfl, ?_, rfl, rfl, ?_, ?_⟩
  · unfold classify; split_ifs <;> simp_all
  · unfold classify; split_ifs <;> simp_all
  · unfold classify; split_ifs <;> simp_all
  · unfold classify; split_ifs <;> simp_all
  · show (if classify (compositeOf s) (trendCount s) = .shortTermBlast then "Short (1-30 days)"
          else if classify (compositeOf s) (trendCount s) = .multiBagger then "Long (>12 months)"
          else if classify (compositeOf s) (trendCount s) = .avoid then "N/A"
          else "Medium (1-12 months)")
        = holdingFor (classify (compositeOf s) (trendCount s))
    cases classify (compositeOf s) (trendCount s) <;> simp [holdingFor]
  · unfold confidenceFull
    refine Int.le_floor.mpr ?_
    exact_mod_cast le_max_left 10 _
  · unfold confidenceFull
    have h1 : max 10 (min 90 (c - 25 + (t : ℚ) * 5)) ≤ 90 :=
      max_le (by norm_num) (min_le_left _ _)
    calc ⌊max 10 (min 90 (c - 25 + (t : ℚ) * 5))⌋ ≤ ⌊(90 : ℚ)⌋ := Int.floor_mono h1
    _ = 90 := by norm_num

/-- The snapshot used in several witnesses: composite exactly 70 with
trend 1, so the full path classifies it Short-Term Blast. -/
def snapBlast : Snapshot := ⟨100, 50, some 60, none, some 62, none, some (5/2), true⟩

/-- Claim C4 counterexample: a full-path recommendation at last close
0.01 has both target-band entries rounding to 0.01, so the band is not
strictly ordered for every last-close price. -/
theorem target_band_counterexample :
    (fullRec "T" ⟨1/100, 0, none, none, none, none, none, false⟩).target_band.1
      = (fullRec "T" ⟨1/100, 0, none, none, none, none, none, false⟩).target_band.2 ∧
    ¬ (fullRec "T" ⟨1/100, 0, none, none, none, none, none, false⟩).target_band.1
      < (fullRec "T" ⟨1/100, 0, none, none, none, none, none, false⟩).target_band.2 := by
  constructor
  · show round2 ((1/100 : ℚ) * (112/100)) = round2 ((1/100 : ℚ) * (128/100))
    norm_num [round2]
  · show ¬ round2 ((1/100 : ℚ) * (112/100)) < round2 ((1/100 : ℚ) * (128/100))
    norm_num [round2]

/-- Claim C4 (amended): on both paths the rounded target band is strictly
ordered whenever the last close is at least 1/7 (so for every realistic
price); at smaller prices the two-decimal rounding can collapse it. -/
theorem target_band_ordered (sym : String) (s : Snapshot) (sym2 : String) (q : Quote) :
    (1/7 ≤ s.c → (fullRec sym s).target_band.1 < (fullRec sym s).target_band.2) ∧
    (1/7 ≤ q.price → (minRecOf sym2 q).target_band.1 < (minRecOf sym2 q).target_band.2) := by
  constructor
  · intro h
    show round2 (s.c * (112/100)) < round2 (s.c * (128/100))
    exact round2_lt_round2 (by linarith)
  · intro h
    show round2 (q.price * (108/100)) < round2 (q.price * (115/100))
    exact round2_lt_round2 (by linarith)

/-- Claim C4 witness: the amended statement at last close 100 on the full
path and on the quote-only path. -/
theorem target_band_ordered_witness :
    (fullRec "Y" snapBlast).target_band.1 < (fullRec "Y" snapBlast).target_band.2 ∧
    (minRecOf "Z" ⟨140, some 100⟩).target_band.1 < (minRecOf "Z" ⟨140, some 100⟩).target_band.2 := by
  refine ⟨(target_band_ordered "Y" snapBlast "Z" ⟨140, some 100⟩).1 (by norm_num [snapBlast]),
    (target_band_ordered "Y" snapBlast "Z" ⟨140, some 100⟩).2 (by norm_num)⟩

lemma self_mem_rollWindow {w : ℕ} (hw : 0 < w) (xs : List ℚ) (i : ℕ) (hi : i < xs.length) :
    xs[i] ∈ rollWindow w xs i := by
  unfold rollWindow
  have hlen : (xs.take (i + 1)).length = i + 1 := by rw [List.length_take]; omega
  have hj : i - (i + 1 - w) < ((xs.take (i + 1)).drop (i + 1 - w)).length := by
    rw [List.length_drop, hlen]; omega
  refine List.mem_iff_getElem.mpr ⟨i - (i + 1 - w), hj, ?_⟩
  rw [List.getElem_drop, List.getElem_take]
  exact getElem_congr (by omega)

/-- Claim C5: `breakout50` compares each close to the trailing 50-bar
maximum high that includes the current bar (the snapshot reads it at the
final bar); hence on any series where every bar's high is at least its
close — in particular any real OHLC series — the flag is false on every
bar, even the day a new 50-bar high is set. -/
theorem breakout_window_includes_current_bar (bars : List Bar) (i : ℕ)
    (hi : i < bars.length) (hbc : ∀ b ∈ bars, b.c ≤ b.h) :
    (snapshotOf bars).breakout50 = breakout50At bars (bars.length - 1) ∧
    breakout50At bars i = false := by
  refine ⟨rfl, ?_⟩
  unfold breakout50At hh50At
  by_cases h50 : 50 ≤ i + 1
  · rw [if_pos h50]
    have him : i < (bars.map (·.h)).length := by
      rw [List.length_map]
      exact hi
    have hmem : (bars.map (·.h))[i] ∈ rollWindow 50 (bars.map (·.h)) i :=
      self_mem_rollWindow (by norm_num) _ i him
    cases hmax : (rollWindow 50 (bars.map (·.h)) i).maximum with
    | bot => simp [hmax]
    | coe m =>
      simp only [hmax]
      have hhm : (bars.map (·.h))[i] ≤ m := List.le_maximum_of_mem hmem hmax
      have hhi : (bars.map (·.h))[i] = bars[i].h := List.getElem_map _
      have hci : (bars.map (·.c)).getD i 0 = bars[i].c := by
        rw [List.getD_eq_getElem?_getD, List.getElem?_eq_getElem (by simpa using hi)]
        simp [List.getElem_map]
      have hch : bars[i].c ≤ bars[i].h := hbc _ (List.getElem_mem hi)
      rw [hci]
      simp only [decide_eq_false_iff_not, not_lt]
      rw [hhi] at hhm
      exact le_trans hch hhm
  · have h49 : ¬ 49 ≤ i := by omega
    simp [h49]

/-- Claim C5 witness: a 50-bar series whose final bar sets a new 50-bar
high (high 5 against 49 bars of high 2) with close 4 still reports no
breakout on that very day. -/
theorem breakout_witness :
    breakout50At (List.replicate 49 ⟨1, 2, 1, 1, 1⟩ ++ [⟨1, 5, 1, 4, 1⟩]) 49 = false :=
  (breakout_window_includes_current_bar
    (List.replicate 49 ⟨1, 2, 1, 1, 1⟩ ++ [⟨1, 5, 1, 4, 1⟩]) 49
    (by decide) (by decide)).2

section SortingLemmas

lemma insertDesc_perm (r : Recommendation) (l : List Recommendation) :
    List.Perm (insertDesc r l) (r :: l) := by
  induction l with
  | nil => exact List.Perm.refl _
  | cons x xs ih =>
    unfold insertDesc
    split_ifs with h
    · exact List.Perm.refl _
    · exact List.Perm.trans (List.Perm.cons x ih) (List.Perm.swap r x xs)

lemma sortDesc_perm (l : List Recommendation) : List.Perm (sortDesc l) l := by
  induction l with
  | nil => exact List.Perm.refl _
  | cons x xs ih =>
    exact List.Perm.trans (insertDesc_perm x (sortDesc xs)) (List.Perm.cons x ih)

lemma insertDesc_pairwise (r : Recommendation) (l : List Recommendation)
    (h : l.Pairwise (fun a b => b.composite_score ≤ a.composite_score)) :
    (insertDesc r l).Pairwise (fun a b => b.composite_score ≤ a.composite_score) := by
  induction l with
  | nil => simp [insertDesc]
  | cons x xs ih =>
    rw [List.pairwise_cons] at h
    unfold insertDesc
    split_ifs with hx
    · refine List.Pairwise.cons ?_ (List.Pairwise.cons h.1 h.2)
      intro b hb
      rcases List.mem_cons.mp hb with rfl | hbx
      · exact hx
      · exact le_trans (h.1 b hbx) hx
    · refine List.Pairwise.cons ?_ (ih h.2)
      intro b hb
      rcases List.mem_cons.mp ((insertDesc_perm r xs).mem_iff.mp hb) with rfl | hbx
      · exact le_of_lt (lt_of_not_le hx)
      · exact h.1 b hbx

lemma sortDesc_pairwise (l : List Recommendation) :
    (sortDesc l).Pairwise (fun a b => b.composite_score ≤ a.composite_score) := by
  induction l with
  | nil => simp [sortDesc]
  | cons x xs ih => exact insertDesc_pairwise x (sortDesc xs) ih

lemma filter_insertDesc (q : ℚ) (r : Recommendation) (l : List Recommendation) :
    (insertDesc r l).filter (fun x => decide (x.composite_score = q))
      = if r.composite_score = q
        then r :: l.filter (fun x => decide (x.composite_score = q))
        else l.filter (fun x => decide (x.composite_score = q)) := by
  induction l with
  | nil => by_cases hq : r.composite_score = q <;> simp [insertDesc, hq]
  | cons x xs ih =>
    unfold insertDesc
    by_cases hxr : x.composite_score ≤ r.composite_score
    · rw [if_pos hxr]
      by_cases hq : r.composite_score = q
      · rw [if_pos hq]
        simp [hq, List.filter_cons]
      · rw [if_neg hq]
        simp [hq, List.filter_cons]
    · rw [if_neg hxr, List.filter_cons, ih]
      by_cases hq : r.composite_score = q
      · have hxq : ¬ x.composite_score = q := fun hxe => hxr (le_of_eq (hxe.trans hq.symm))
        rw [if_pos hq, if_pos hq]
        simp [hxq, List.filter_cons]
      · rw [if_neg hq, if_neg hq]
        simp [List.filter_cons]

lemma sortDesc_filter (q : ℚ) (l : List Recommendation) :
    (sortDesc l).filter (fun x => decide (x.composite_score = q))
      = l.filter (fun x => decide (x.composite_score = q)) := by
  induction l with
  | nil => rfl
  | cons x xs ih =>
    rw [show sortDesc (x :: xs) = insertDesc x (sortDesc xs) from rfl,
      filter_insertDesc, List.filter_cons, ih]
    by_cases hq : x.composite_score = q <;> simp [hq]

end SortingLemmas

/-- Claim C6: the ranked list is exactly the stable descending sort of
the successfully scored per-symbol results, truncated to at most nine
entries: the sorted list is a permutation of the scored results, its
scores are non-increasing, elements of equal score keep their original
fetch order (filtering by any fixed score is unchanged by the sort), and
the returned list is its 9-prefix. -/
theorem rank_sorted_stable_truncated (env : String → SymbolData) (minBars : ℕ)
    (symbols : List String) :
    rankSymbols env minBars symbols
      = (sortDesc (symbols.filterMap (fun sym => scoreSymbol sym (env sym) minBars))).take 9 ∧
    List.Perm (sortDesc (symbols.filterMap (fun sym => scoreSymbol sym (env sym) minBars)))
      (symbols.filterMap (fun sym => scoreSymbol sym (env sym) minBars)) ∧
    (sortDesc (symbols.filterMap (fun sym => scoreSymbol sym (env sym) minBars))).Pairwise
      (fun a b => b.composite_score ≤ a.composite_score) ∧
    (∀ q : ℚ,
      (sortDesc (symbols.filterMap (fun sym => scoreSymbol sym (env sym) minBars))).filter
          (fun r => decide (r.composite_score = q))
        = (symbols.filterMap (fun sym => scoreSymbol sym (env sym) minBars)).filter
          (fun r => decide (r.composite_score = q))) ∧
    (rankSymbols env minBars symbols).length ≤ 9 := by
  refine ⟨rfl, sortDesc_perm _, sortDesc_pairwise _, fun q => sortDesc_filter q _, ?_⟩
  exact List.length_take_le _ _

/-- Claim C7: a cache entry that exists and is younger than its key's TTL
is returned verbatim with the cache untouched; on a stale entry or a miss
the freshly computed list is served and the entry is replaced wholesale;
the TTL is 900 seconds for the "all" universe and 300 for any other key. -/
theorem cache_fresh_hit_and_replace (cache : String → Option CacheEntry) (key : String)
    (now : ℚ) (compute : List Recommendation) (e : CacheEntry) :
    (cache key = some e → now - e.ts < ttlFor key →
        cacheRead cache key now compute = (e.items, cache)) ∧
    (cache key = some e → ¬ now - e.ts < ttlFor key →
        cacheRead cache key now compute
          = (compute, fun k => if k = key then some ⟨compute, now⟩ else cache k)) ∧
    (cache key = none →
        cacheRead cache key now compute
          = (compute, fun k => if k = key then some ⟨compute, now⟩ else cache k)) ∧
    ttlFor "all" = 900 ∧
    (key ≠ "all" → ttlFor key = 300) := by
  refine ⟨?_, ?_, ?_, rfl, ?_⟩
  · intro he hf
    unfold cacheRead
    rw [he]
    simp [hf]
  · intro he hf
    unfold cacheRead
    rw [he]
    simp [hf]
  · intro he
    unfold cacheRead
    rw [he]
  · intro hk
    unfold ttlFor
    rw [if_neg hk]

/-- The concrete cache used by the C7 witness: one "mid" entry stored at
time 0. -/
def cacheW : String → Option CacheEntry := fun k => if k = "mid" then some ⟨[], 0⟩ else none

/-- Claim C7 witness: reading "mid" at time 100 (age 100 < 300) returns
the stored list verbatim and leaves the cache unchanged; the "all"
universe TTL is 900. -/
theorem cache_fresh_hit_witness :
    cacheRead cacheW "mid" 100 [] = (([] : List Recommendation), cacheW) ∧
    ttlFor "all" = 900 := by
  refine ⟨(cache_fresh_hit_and_replace cacheW "mid" 100 [] ⟨[], 0⟩).1 rfl ?_,
    (cache_fresh_hit_and_replace cacheW "mid" 100 [] ⟨[], 0⟩).2.2.2.1⟩
  show (100 : ℚ) - 0 < ttlFor "mid"
  unfold ttlFor
  rw [if_neg (by decide)]
  norm_num

/-- Claim C8: pagination clamps both the page size and the page number
into [1,3] and returns the slice `[(page-1)*n, (page-1)*n + n)` of the
ranked list, an out-of-range slice being empty rather than an error; on a
9-item ranked list, page 1 and page 2 of size 3 are the two disjoint
3-item slices `[0,3)` and `[3,6)` whose concatenation is the first 6
items. -/
theorem pagination_clamp_and_slices (α : Type) (ranked : List α) (n page : ℤ) :
    topPage ranked n page
      = (ranked.drop ((max 1 (min 3 page) - 1) * max 1 (min 3 n)).toNat).take
          (max 1 (min 3 n)).toNat ∧
    (1 ≤ max 1 (min 3 n) ∧ max 1 (min 3 n) ≤ 3 ∧
     1 ≤ max 1 (min 3 page) ∧ max 1 (min 3 page) ≤ 3) ∧
    (ranked.length ≤ ((max 1 (min 3 page) - 1) * max 1 (min 3 n)).toNat →
        topPage ranked n page = []) ∧
    (ranked.length = 9 →
        topPage ranked 3 1 = ranked.take 3 ∧
        topPage ranked 3 2 = (ranked.drop 3).take 3 ∧
        topPage ranked 3 1 ++ topPage ranked 3 2 = ranked.take 6 ∧
        (topPage ranked 3 1).length = 3 ∧ (topPage ranked 3 2).length = 3) := by
  have e1 : topPage ranked 3 1 = ranked.take 3 := rfl
  have e2 : topPage ranked 3 2 = (ranked.drop 3).take 3 := rfl
  refine ⟨rfl,
    ⟨le_max_left _ _, max_le (by norm_num) (min_le_left _ _),
     le_max_left _ _, max_le (by norm_num) (min_le_left _ _)⟩, ?_, ?_⟩
  · intro h
    show (ranked.drop ((max 1 (min 3 page) - 1) * max 1 (min 3 n)).toNat).take
        (max 1 (min 3 n)).toNat = []
    rw [List.drop_eq_nil_of_le h]
    simp
  · intro h9
    refine ⟨e1, e2, ?_, ?_, ?_⟩
    · rw [e1, e2, show (6 : ℕ) = 3 + 3 from rfl, List.take_add]
    · rw [e1, List.length_take, h9]
      rfl
    · rw [e2, List.length_take, List.length_drop, h9]
      rfl

/-- The 9-item list used by the C8 witness. -/
def ranked9 : List ℕ := [0, 1, 2, 3, 4, 5, 6, 7, 8]

/-- Claim C8 witness: on the explicit 9-item list, pages 1 and 2 of size
3 concatenate to the first 6 items; page 3 of a 5-item list is empty
rather than an error. -/
theorem pagination_witness :
    topPage ranked9 3 1 ++ topPage ranked9 3 2 = ranked9.take 6 ∧
    topPage (ranked9.take 5) 3 3 = [] := by
  refine ⟨((pagination_clamp_and_slices ℕ ranked9 3 1).2.2.2 rfl).2.2.1,
    (pagination_clamp_and_slices ℕ (ranked9.take 5) 3 3).2.2.1 (by norm_num [ranked9])⟩

lemma minimal_none_of_score_none (sym : String) (d : SymbolData) (minBars : ℕ)
    (h : scoreSymbol sym d minBars = none) : minimalFromQuote sym d.quote = none := by
  obtain ⟨bars, quote⟩ := d
  cases bars with
  | none => exact h
  | some b =>
    by_cases hc : b = [] ∨ b.length < minBars
    · rw [show scoreSymbol sym ⟨some b, quote⟩ minBars
          = (if b = [] ∨ b.length < minBars then minimalFromQuote sym quote
             else some (fullRec sym (snapshotOf b))) from rfl, if_pos hc] at h
      exact h
    · rw [show scoreSymbol sym ⟨some b, quote⟩ minBars
          = (if b = [] ∨ b.length < minBars then minimalFromQuote sym quote
             else some (fullRec sym (snapshotOf b))) from rfl, if_neg hc] at h
      exact absurd h (by simp)

lemma scoreSymbol_none_iff (sym : String) (d : SymbolData) :
    scoreSymbol sym d 20 = none ↔ noData d = true := by
  obtain ⟨bars, quote⟩ := d
  cases bars with
  | none =>
    cases quote with
    | none => simp [scoreSymbol, minimalFromQuote, noData]
    | some q => simp [scoreSymbol, minimalFromQuote, noData]
  | some b =>
    have hnd : noData ⟨some b, quote⟩
        = ((b.isEmpty || decide (b.length < 20)) && quote.isNone) := rfl
    by_cases hc : b = [] ∨ b.length < 20
    · rw [show scoreSymbol sym ⟨some b, quote⟩ 20
          = (if b = [] ∨ b.length < 20 then minimalFromQuote sym quote
             else some (fullRec sym (snapshotOf b))) from rfl, if_pos hc, hnd]
      have hbool : (b.isEmpty || decide (b.length < 20)) = true := by
        rcases hc with hc | hc
        · simp [hc]
        · simp [hc]
      cases quote with
      | none => simp [minimalFromQuote, hbool]
      | some q => simp [minimalFromQuote]
    · rw [show scoreSymbol sym ⟨some b, quote⟩ 20
          = (if b = [] ∨ b.length < 20 then minimalFromQuote sym quote
             else some (fullRec sym (snapshotOf b))) from rfl, if_neg hc, hnd]
      push_neg at hc
      simp [List.isEmpty_iff, hc.1, hc.2]

/-- Claim C9: a symbol whose scoring fails entirely (no bars of any use
and no quote) is silently excluded from a batch ranking — inserting it
anywhere leaves the ranked output unchanged — and the single-symbol
endpoint returns a null recommendation together with a non-null
human-readable note exactly when no data of any kind is obtainable. -/
theorem per_symbol_failures_contained (env : String → SymbolData) (minBars : ℕ)
    (xs ys : List String) (sym : String) :
    (scoreSymbol sym (env sym) minBars = none →
        rankSymbols env minBars (xs ++ sym :: ys) = rankSymbols env minBars (xs ++ ys)) ∧
    (((oneRec env sym).1 = none ∧ (oneRec env sym).2 ≠ none) ↔ noData (env sym) = true) ∧
    ((oneRec env sym).1 = none →
        (oneRec env sym).2
          = some "No live data available for this symbol at the moment. Try later or check the symbol/exchange.") := by
  have hone : oneRec env sym
      = (match rankSymbols env 20 [sym] with
         | r :: _ => (some r, none)
         | [] =>
            match minimalFromQuote sym (env sym).quote with
            | some m => (some m, some "Quote-only snapshot (limited data).")
            | none => (none, some "No live data available for this symbol at the moment. Try later or check the symbol/exchange.")) := rfl
  refine ⟨?_, ?_, ?_⟩
  · intro h
    unfold rankSymbols
    rw [List.filterMap_append, List.filterMap_append]
    have hcons : List.filterMap (fun s => scoreSymbol s (env s) minBars) (sym :: ys)
        = List.filterMap (fun s => scoreSymbol s (env s) minBars) ys := by
      rw [List.filterMap_cons]
      simp [h]
    rw [hcons]
  · cases hs : scoreSymbol sym (env sym) 20 with
    | some r =>
      have hrank : rankSymbols env 20 [sym] = [r] := by
        simp [rankSymbols, hs, sortDesc, insertDesc]
      rw [hone, hrank]
      simp only []
      constructor
      · rintro ⟨h1, -⟩
        exact absurd h1 (by simp)
      · intro hnd
        exact absurd hs (by rw [(scoreSymbol_none_iff sym (env sym)).mpr hnd]; simp)
    | none =>
      have hrank : rankSymbols env 20 [sym] = [] := by
        simp [rankSymbols, hs, sortDesc]
      have hmin : minimalFromQuote sym (env sym).quote = none :=
        minimal_none_of_score_none sym (env sym) 20 hs
      rw [hone, hrank, hmin]
      simp [(scoreSymbol_none_iff sym (env sym)).mp hs]
  · cases hs : scoreSymbol sym (env sym) 20 with
    | some r =>
      have hrank : rankSymbols env 20 [sym] = [r] := by
        simp [rankSymbols, hs, sortDesc, insertDesc]
      rw [hone, hrank]
      intro h1
      exact absurd h1 (by simp)
    | none =>
      have hrank : rankSymbols env 20 [sym] = [] := by
        simp [rankSymbols, hs, sortDesc]
      have hmin : minimalFromQuote sym (env sym).quote = none :=
        minimal_none_of_score_none sym (env sym) 20 hs
      rw [hone, hrank, hmin]
      intro _
      rfl

/-- The provider of the C9 witness: no bars and no quote for any symbol. -/
def envEmpty : String → SymbolData := fun _ => ⟨none, none⟩

/-- Claim C9 witness: with a provider yielding nothing, the failing
symbol "B" is excluded from the batch without affecting it, and the
single-symbol endpoint reports a null recommendation. -/
theorem per_symbol_failures_witness :
    rankSymbols envEmpty 20 (["A"] ++ "B" :: []) = rankSymbols envEmpty 20 (["A"] ++ []) ∧
    (oneRec envEmpty "B").1 = none := by
  refine ⟨(per_symbol_failures_contained envEmpty 20 ["A"] [] "B").1 rfl,
    (((per_symbol_failures_contained envEmpty 20 [] [] "B").2.1).mpr rfl).1⟩

/-- Claim C10: every quote-only recommendation's holding duration is
"N/A" when classified Avoid and "Medium (1-12 months)" otherwise, so a
degraded-path Short-Term Blast carries "Medium (1-12 months)" while the
full path assigns "Short (1-30 days)" to the same classification. -/
theorem minimal_holding_rule (sym : String) (q : Quote) (sym2 : String) (s : Snapshot) :
    (minRecOf sym q).holding_duration
      = (if (minRecOf sym q).classification = .avoid then "N/A" else "Medium (1-12 months)") ∧
    ((minRecOf sym q).classification = .shortTermBlast →
        (minRecOf sym q).holding_duration = "Medium (1-12 months)") ∧
    ((fullRec sym2 s).classification = .shortTermBlast →
        (fullRec sym2 s).holding_duration = "Short (1-30 days)") := by
  refine ⟨rfl, ?_, ?_⟩
  · intro h
    rw [show (minRecOf sym q).holding_duration
        = (if (minRecOf sym q).classification = .avoid then "N/A" else "Medium (1-12 months)")
        from rfl, h]
    simp
  · intro h
    rw [show (fullRec sym2 s).holding_duration
        = (if (fullRec sym2 s).classification = .shortTermBlast then "Short (1-30 days)"
           else if (fullRec sym2 s).classification = .multiBagger then "Long (>12 months)"
           else if (fullRec sym2 s).classification = .avoid then "N/A"
           else "Medium (1-12 months)")
        from rfl, h]
    simp

/-- Claim C10 witness: last 140 against prev 100 yields a degraded
composite of exactly 70 — a quote-only Short-Term Blast — holding
"Medium (1-12 months)", while the full-path Short-Term Blast snapshot
holds "Short (1-30 days)". -/
theorem minimal_holding_rule_witness :
    (minRecOf "X.NS" ⟨140, some 100⟩).holding_duration = "Medium (1-12 months)" ∧
    (fullRec "Y" snapBlast).holding_duration = "Short (1-30 days)" := by
  refine ⟨(minimal_holding_rule "X.NS" ⟨140, some 100⟩ "Y" snapBlast).2.1 ?_,
    (minimal_holding_rule "X.NS" ⟨140, some 100⟩ "Y" snapBlast).2.2 ?_⟩
  · show (if minComposite 140 (some 100) < 55 then Classification.avoid
          else if minComposite 140 (some 100) < 70 then .neutral
          else .shortTermBlast) = .shortTermBlast
    norm_num [minComposite, changePct, round1]
  · show classify (compositeOf snapBlast) (trendCount snapBlast) = .shortTermBlast
    norm_num [classify, compositeOf, techOf, trendCount, atrPct, round1, snapBlast]

end StockAdvisor
